import Mathlib

/-!
Verification development for the inventory forecasting pipeline
(`systemML.py`).  The script's pipeline is embedded shallowly:

* the raw table (after the script's `sort_values(['ID_PRODUTO','DATA_EVENTO'])`
  and `reset_index(drop=True)` at line 57) is represented as a
  `List (List Row)`: the per-product contiguous blocks of the sorted table,
  in the order `df['ID_PRODUTO'].unique()` iterates them;
* dates are proleptic-Gregorian day counts (`ℤ`, epoch 1970-01-01), the
  calendar decomposition used for `DAY_OF_WEEK`/`DAY`/`MONTH` is the standard
  civil-from-days algorithm that pandas timestamps realise;
* floating point numbers are modelled as `ℚ`; the trained sklearn regressors
  are opaque prediction functions `Feat → ℚ` (their internals are library
  code, not part of this repository), and the selected model's RMSE — an
  irrational square root — enters the forecaster as an opaque `ℚ` input,
  exactly as `best_metrics['RMSE']` enters `forecast_next_days`.
-/

/-- One raw observation row of the input table:
columns `ID_PRODUTO, DATA_EVENTO, QUANTIDADE_ESTOQUE, PRECO, FLAG_PROMOCAO`. -/
structure Row where
  id_produto : ℕ
  data_evento : ℤ
  quantidade_estoque : ℚ
  preco : ℚ
  flag_promocao : ℚ
deriving DecidableEq, Repr

instance : Inhabited Row := ⟨⟨0, 0, 0, 0, 0⟩⟩

/-- Pandas `Timestamp.dayofweek` (Monday = 0 … Sunday = 6) on the day-count
timeline: 1970-01-01 was a Thursday, hence the shift by 3. -/
def dayOfWeekZ (t : ℤ) : ℤ := (t + 3).emod 7

/-- Civil calendar from a day count (days since 1970-01-01), the standard
algorithm pandas timestamps realise.  Returns `(year, month, day)`. -/
def civilFromDays (t : ℤ) : ℤ × ℤ × ℤ :=
  let z := t + 719468
  let era := z.ediv 146097
  let doe := z.emod 146097
  let yoe := (doe - doe.ediv 1460 + doe.ediv 36524 - doe.ediv 146096).ediv 365
  let y := yoe + era * 400
  let doy := doe - (365 * yoe + yoe.ediv 4 - yoe.ediv 100)
  let mp := (5 * doy + 2).ediv 153
  let d := doy - (153 * mp + 2).ediv 5 + 1
  let m := mp + (if mp < 10 then 3 else -9)
  (y + (if m ≤ 2 then 1 else 0), m, d)

/-- Pandas `Timestamp.day` (day of month). -/
def dayOfMonthZ (t : ℤ) : ℤ := (civilFromDays t).2.2

/-- Pandas `Timestamp.month`. -/
def monthZ (t : ℤ) : ℤ := (civilFromDays t).2.1

/-- One engineered row of `df_features`: the raw row plus every derived
column added by the feature-engineering section (lines 59–100). -/
structure FeatRow where
  row : Row
  day_of_week : ℤ
  day : ℤ
  month : ℤ
  weekend : ℚ
  prev_day_sales : ℚ
  previous_price : ℚ
  price_variation : ℚ
  ma_3d : ℚ
  ma_7d : ℚ
  trend_3d : ℚ
  low_stock : ℚ
  needs_replenish : ℚ
  days_since_restock : ℕ
deriving DecidableEq, Repr

instance : Inhabited FeatRow :=
  ⟨⟨default, 0, 0, 0, 0, 0, 0, 0, 0, 0, 0, 0, 0, 0⟩⟩

/-- `np.mean` over a rational list (the empty list yields `0/0 = 0`). -/
def listMean (l : List ℚ) : ℚ := l.sum / l.length

/-- `Series.rolling(window := w, min_periods := 1).mean()` at position `i`:
the mean of the trailing `w` stock levels ending at `i`, over however many
exist when fewer than `w` are available. -/
def rollingMean (w : ℕ) (rows : List Row) (i : ℕ) : ℚ :=
  listMean (((rows.take (i + 1)).drop (i + 1 - w)).map Row.quantidade_estoque)

/-- The per-product restock indices at or before `i` (line 90's
`restocks` filtered by `restocks <= idx`, in block-local coordinates). -/
def restockIdxs (rows : List Row) (i : ℕ) : List ℕ :=
  (List.range (i + 1)).filter (fun j => 95 ≤ (rows.getD j default).quantidade_estoque)

/-- Lines 89–98: `DAYS_SINCE_RESTOCK` at block-local index `i` of a product
whose block starts at global index `base` in the sorted table.  The pandas
index arithmetic `idx - last_restock` cancels the base; the `else` branch
stores the *global* index `base + i`. -/
def daysSinceRestock (base : ℕ) (rows : List Row) (i : ℕ) : ℕ :=
  match (restockIdxs rows i).max? with
  | some j => i - j
  | none => base + i

/-- Lines 59–98 for one row: the engineered columns of the row at
block-local index `i` of the product block `rows` starting at global
index `base`. -/
def mkFeatRow (base : ℕ) (rows : List Row) (i : ℕ) : FeatRow :=
  let r := rows.getD i default
  let prev := rows.getD (i - 1) default
  let ma3 := rollingMean 3 rows i
  { row := r
    day_of_week := dayOfWeekZ r.data_evento
    day := dayOfMonthZ r.data_evento
    month := monthZ r.data_evento
    weekend := if dayOfWeekZ r.data_evento = 5 ∨ dayOfWeekZ r.data_evento = 6 then 1 else 0
    prev_day_sales := if i = 0 then 0 else prev.quantidade_estoque - r.quantidade_estoque
    previous_price := if i = 0 then r.preco else prev.preco
    price_variation := r.preco - (if i = 0 then r.preco else prev.preco)
    ma_3d := ma3
    ma_7d := rollingMean 7 rows i
    trend_3d := r.quantidade_estoque - ma3
    low_stock := if r.quantidade_estoque < 20 then 1 else 0
    needs_replenish := if r.quantidade_estoque < 30 then 1 else 0
    days_since_restock := daysSinceRestock base rows i }

/-- The feature-engineering loop body for one product block. -/
def engineerSeries (base : ℕ) (rows : List Row) : List FeatRow :=
  (List.range rows.length).map (mkFeatRow base rows)

/-- The whole loop of lines 65–100, carrying the running global base index
of each product's block in the sorted, reindexed table. -/
def engineerAllAux : ℕ → List (List Row) → List FeatRow
  | _, [] => []
  | base, rows :: rest => engineerSeries base rows ++ engineerAllAux (base + rows.length) rest

/-- `df_features` (line 102): the concatenation of every product's engineered
block, in table order. -/
def engineerAll (series : List (List Row)) : List FeatRow :=
  engineerAllAux 0 series

/-- Global base index of the `k`-th product block in the sorted table. -/
def baseOf (series : List (List Row)) (k : ℕ) : ℕ :=
  ((series.take k).map List.length).sum

/-- The model-input record: the 14 `feature_columns` of lines 134–140,
selected from an engineered row (and also built synthetically by the
forecaster). -/
structure Feat where
  id_produto : ℕ
  preco : ℚ
  flag_promocao : ℚ
  day_of_week : ℤ
  day : ℤ
  month : ℤ
  weekend : ℚ
  prev_day_sales : ℚ
  previous_price : ℚ
  price_variation : ℚ
  ma_3d : ℚ
  ma_7d : ℚ
  trend_3d : ℚ
  days_since_restock : ℕ
deriving DecidableEq, Repr

instance : Inhabited Feat := ⟨⟨0, 0, 0, 0, 0, 0, 0, 0, 0, 0, 0, 0, 0, 0⟩⟩

/-- Column selection `df_features[feature_columns]` for one row. -/
def toFeat (fr : FeatRow) : Feat :=
  { id_produto := fr.row.id_produto
    preco := fr.row.preco
    flag_promocao := fr.row.flag_promocao
    day_of_week := fr.day_of_week
    day := fr.day
    month := fr.month
    weekend := fr.weekend
    prev_day_sales := fr.prev_day_sales
    previous_price := fr.previous_price
    price_variation := fr.price_variation
    ma_3d := fr.ma_3d
    ma_7d := fr.ma_7d
    trend_3d := fr.trend_3d
    days_since_restock := fr.days_since_restock }

/-- `df_model` (line 145): feature columns paired with the target
`QUANTIDADE_ESTOQUE`.  Every engineered column is total here, so the
script's `dropna()` removes nothing. -/
def dfModel (series : List (List Row)) : List (Feat × ℚ) :=
  (engineerAll series).map (fun fr => (toFeat fr, fr.row.quantidade_estoque))

/-- `sklearn.model_selection.train_test_split` with `test_size = 0.2` and
`shuffle = False` (lines 150–152), modelled from sklearn's documented
semantics: `n_test = ceil(0.2 * n)` and, without shuffling, the test
partition is the final segment; `(n + 4) / 5` is `ceil(n / 5)` in `ℕ`. -/
def trainTestSplitNoShuffle {α : Type} (l : List α) : List α × List α :=
  let nTest := (l.length + 4) / 5
  (l.take (l.length - nTest), l.drop (l.length - nTest))

/-- The training partition `(X_train, y_train)` as row pairs. -/
def trainPart (series : List (List Row)) : List (Feat × ℚ) :=
  (trainTestSplitNoShuffle (dfModel series)).1

/-- The holdout partition `(X_test, y_test)` as row pairs. -/
def testPart (series : List (List Row)) : List (Feat × ℚ) :=
  (trainTestSplitNoShuffle (dfModel series)).2

/-- `np.clip(x, lo, hi)`. -/
def npClip (x lo hi : ℚ) : ℚ := min (max x lo) hi

/-- Lines 189–190: holdout predictions of a regressor, every prediction
clipped to `[0, 100]`.  The fitted sklearn regressor itself is opaque
library state, abstracted as the function `predict`. -/
def evalPreds (predict : Feat → ℚ) (xTest : List Feat) : List ℚ :=
  xTest.map (fun x => npClip (predict x) 0 100)

/-- Lines 195/200 as written: `np.mean(np.abs((y_test - y_pred) / (y_test + 1))) * 100`. -/
def mapeCode (actual preds : List ℚ) : ℚ :=
  listMean (List.zipWith (fun a p => |(a - p) / (a + 1)|) actual preds) * 100

/-- The spec's formula: `mean(|actual - predicted| / (actual + 1)) * 100`. -/
def mapeSpec (actual preds : List ℚ) : ℚ :=
  listMean (List.zipWith (fun a p => |a - p| / (a + 1)) actual preds) * 100

/-- `sklearn.metrics.r2_score`: `1 - SS_res / SS_tot` (in `ℚ`, a degenerate
holdout with `SS_tot = 0` yields `1 - SS_res / 0 = 1`). -/
def r2Score (actual preds : List ℚ) : ℚ :=
  1 - (List.zipWith (fun a p => (a - p) ^ 2) actual preds).sum /
      (actual.map (fun a => (a - listMean actual) ^ 2)).sum

/-- The two trained variants of lines 165–182, named as the spec names
them: `forest` is the Random Forest, `boosted` the Gradient Boosting
regressor.  The Forest is evaluated first (lines 189, 192–195), the
Boosted one second (lines 190, 197–200). -/
inductive BestModel
  | forest
  | boosted
deriving DecidableEq, Repr

/-- Lines 202–209: `if r2_rf > r2_gb: best = rf_model else: best = gb_model`. -/
def selectBest (r2Rf r2Gb : ℚ) : BestModel :=
  if r2Rf > r2Gb then .forest else .boosted

/-- The evaluation-and-selection pipeline over the holdout: clip both
regressors' predictions, score both by R2, keep the winner of line 202. -/
def evalAndSelect (predictRf predictGb : Feat → ℚ) (xTest : List Feat)
    (yTest : List ℚ) : BestModel :=
  selectBest (r2Score yTest (evalPreds predictRf xTest))
    (r2Score yTest (evalPreds predictGb xTest))

/-- Python's `round(x, 1)`: nearest multiple of `1/10` (ties, which numpy
resolves to even and Mathlib's `round` upward, decide no property below). -/
def round1 (x : ℚ) : ℚ := (round (10 * x) : ℤ) / 10

/-- One emitted forecast record (lines 253–259).  The date is kept as a day
count; `strftime` is presentation only. -/
structure ForecastPoint where
  date : ℤ
  predicted : ℚ
  lower : ℚ
  upper : ℚ
  confidence : String
deriving DecidableEq, Repr

/-- Lines 231–246: the synthetic feature vector for future offset `d`.
`loopId` is the module-level loop variable `product_id` the dict reads at
line 232 — the id of the product iterated last during feature engineering,
not the id the forecast was asked for.  Note line 240 sets
`PREVIOUS_PRICE` from `last_row['PRECO']`, not `last_row['PREVIOUS_PRICE']`. -/
def futureFeat (loopId : ℕ) (lastRow : FeatRow) (d : ℕ) : Feat :=
  let futureDate := lastRow.row.data_evento + d
  { id_produto := loopId
    preco := lastRow.row.preco
    flag_promocao := 0
    day_of_week := dayOfWeekZ futureDate
    day := dayOfMonthZ futureDate
    month := monthZ futureDate
    weekend := if dayOfWeekZ futureDate = 5 ∨ dayOfWeekZ futureDate = 6 then 1 else 0
    prev_day_sales := lastRow.prev_day_sales
    previous_price := lastRow.row.preco
    price_variation := 0
    ma_3d := lastRow.ma_3d
    ma_7d := lastRow.ma_7d
    trend_3d := lastRow.trend_3d
    days_since_restock := lastRow.days_since_restock + d }

/-- Lines 248–259 for one future offset `d`: predict on the synthetic
vector, clip to `[0, 100]`, band by `1.5 × RMSE`, round for reporting. -/
def forecastStep (predict : Feat → ℚ) (rmseBest : ℚ) (loopId : ℕ)
    (lastRow : FeatRow) (d : ℕ) : ForecastPoint :=
  let predStock := npClip (predict (futureFeat loopId lastRow d)) 0 100
  let errorMargin := rmseBest * (3 / 2)
  { date := lastRow.row.data_evento + d
    predicted := round1 predStock
    lower := round1 (max 0 (predStock - errorMargin))
    upper := round1 (min 100 (predStock + errorMargin))
    confidence := "85%" }

/-- Lines 222–223: select the requested product's engineered rows and take
the final one; `iloc[-1]` on an empty selection raises (the failure the
spec calls `NotFoundError`), modelled as `none`. -/
def lastRowFor (dfFeatures : List FeatRow) (prodId : ℕ) : Option FeatRow :=
  (dfFeatures.filter (fun fr => fr.row.id_produto == prodId)).getLast?

/-- `forecast_next_days` (lines 220–261): one `ForecastPoint` per future
offset `d = 1..days`, or failure when the requested id has no rows. -/
def forecastNextDays (predict : Feat → ℚ) (rmseBest : ℚ) (loopId : ℕ)
    (dfFeatures : List FeatRow) (prodId : ℕ) (days : ℕ) :
    Option (List ForecastPoint) :=
  (lastRowFor dfFeatures prodId).map (fun lastRow =>
    (List.range days).map (fun k => forecastStep predict rmseBest loopId lastRow (k + 1)))

/-- The value the module-level loop variable `product_id` holds after the
feature-engineering loop: the id of the product iterated last, i.e. the id
of the sorted table's final row. -/
def loopProductIdOf (series : List (List Row)) : ℕ :=
  ((series.flatten.getLast?).map Row.id_produto).getD 0

/-- The forecast call as the script makes it: over `df_features`, with the
leaked module-level `product_id` in scope. -/
def forecastPipeline (series : List (List Row)) (predict : Feat → ℚ)
    (rmseBest : ℚ) (prodId days : ℕ) : Option (List ForecastPoint) :=
  forecastNextDays predict rmseBest (loopProductIdOf series)
    (engineerAll series) prodId days

/-- The spec's four-day restock example: stock levels `[50, 45, 96, 90]`. -/
def restockExampleRows : List Row :=
  [⟨1, 0, 50, 10, 0⟩, ⟨1, 1, 45, 10, 0⟩, ⟨1, 2, 96, 10, 0⟩, ⟨1, 3, 90, 10, 0⟩]

/-- A two-product table with no restock anywhere: one observation of
product 1 followed by one observation of product 2. -/
def twoSkuNoRestock : List (List Row) :=
  [[⟨1, 0, 50, 10, 0⟩], [⟨2, 0, 50, 10, 0⟩]]

/-- A one-product table whose price moves from 10 to 20 on the second day. -/
def priceMoveRows : List Row := [⟨7, 0, 50, 10, 0⟩, ⟨7, 1, 48, 20, 0⟩]

/-- The engineered last row of `priceMoveRows` (block base 0, index 1). -/
def priceMoveLastRow : FeatRow := mkFeatRow 0 priceMoveRows 1

/-- A two-product table used to exhibit the leaked loop variable: the
forecast target is product 1, but product 2 is iterated last. -/
def leakExampleSeries : List (List Row) :=
  [[⟨1, 0, 50, 10, 0⟩], [⟨2, 3, 70, 12, 0⟩]]

/-- The engineered (only) row of `leakExampleSeries`'s first block, the
last row located when product 1's forecast is requested. -/
def leakLastRow : FeatRow := mkFeatRow 0 [⟨1, 0, 50, 10, 0⟩] 0

/-- A one-product table used to exercise the clipping path end to end. -/
def clipExampleSeries : List (List Row) := [[⟨3, 0, 50, 10, 0⟩]]

/-- The engineered (only) row of `clipExampleSeries`. -/
def clipLastRow : FeatRow := mkFeatRow 0 [⟨3, 0, 50, 10, 0⟩] 0

/-- A one-product table whose last observation is on day 5. -/
def horizonExampleSeries : List (List Row) := [[⟨1, 5, 50, 10, 0⟩]]

/-- The engineered (only) row of `horizonExampleSeries`. -/
def horizonLastRow : FeatRow := mkFeatRow 0 [⟨1, 5, 50, 10, 0⟩] 0

/-- A two-product table for the no-lookahead perturbation check. -/
def perturbBase : List (List Row) :=
  [[⟨1, 0, 50, 10, 0⟩, ⟨1, 1, 45, 10, 0⟩], [⟨2, 0, 96, 11, 0⟩]]

/-- `perturbBase` with product 1's *later* observation changed and product
2's observation changed entirely; block lengths are preserved. -/
def perturbLater : List (List Row) :=
  [[⟨1, 0, 50, 10, 0⟩, ⟨1, 1, 99, 33, 0⟩], [⟨2, 5, 20, 7, 0⟩]]

/-- A one-product, five-row table, so the assembled table's size is an
exact multiple of 5. -/
def fiveRowSeries : List (List Row) :=
  [[⟨1, 0, 50, 10, 0⟩, ⟨1, 1, 48, 10, 0⟩, ⟨1, 2, 47, 10, 0⟩,
    ⟨1, 3, 99, 10, 0⟩, ⟨1, 4, 90, 10, 0⟩]]

/- ======================================================================
   Structural lemmas about the feature engine
   ====================================================================== -/

theorem engineerSeries_length (b : ℕ) (rows : List Row) :
    (engineerSeries b rows).length = rows.length := by
  simp [engineerSeries]

theorem engineerSeries_getD (b : ℕ) (rows : List Row) (i : ℕ) (hi : i < rows.length) :
    (engineerSeries b rows).getD i default = mkFeatRow b rows i := by
  rw [List.getD_eq_getElem _ _ (by simpa [engineerSeries] using hi)]
  simp [engineerSeries]

theorem mkFeatRow_row (b : ℕ) (rows : List Row) (i : ℕ) :
    (mkFeatRow b rows i).row = rows.getD i default := rfl

theorem engineerSeries_rows (b : ℕ) (rows : List Row) :
    (engineerSeries b rows).map FeatRow.row = rows := by
  apply List.ext_getElem
  · simp [engineerSeries]
  · intro i h1 h2
    simp [engineerSeries, mkFeatRow_row, List.getElem?_eq_getElem h2]

theorem engineerAllAux_rows (s : List (List Row)) :
    ∀ b, (engineerAllAux b s).map FeatRow.row = s.flatten := by
  induction s with
  | nil => intro b; simp [engineerAllAux]
  | cons rows rest ih =>
    intro b
    simp [engineerAllAux, engineerSeries_rows, ih]

theorem engineerAll_rows (s : List (List Row)) :
    (engineerAll s).map FeatRow.row = s.flatten :=
  engineerAllAux_rows s 0

theorem baseOf_cons_zero (rows : List Row) (rest : List (List Row)) :
    baseOf (rows :: rest) 0 = 0 := by
  simp [baseOf]

theorem baseOf_cons_succ (rows : List Row) (rest : List (List Row)) (k : ℕ) :
    baseOf (rows :: rest) (k + 1) = rows.length + baseOf rest k := by
  simp [baseOf]

theorem engineerAllAux_getD (s : List (List Row)) :
    ∀ (b k j : ℕ), k < s.length → j < (s.getD k []).length →
      (engineerAllAux b s).getD (baseOf s k + j) default =
        mkFeatRow (b + baseOf s k) (s.getD k []) j := by
  induction s with
  | nil => intro b k j hk; exact absurd hk (by simp)
  | cons rows rest ih =>
    intro b k j hk hj
    cases k with
    | zero =>
      rw [baseOf_cons_zero, Nat.zero_add, Nat.add_zero]
      simp only [List.getD_cons_zero] at hj ⊢
      rw [engineerAllAux,
        List.getD_append _ _ _ _ (by rw [engineerSeries_length]; exact hj)]
      exact engineerSeries_getD b rows j hj
    | succ k =>
      rw [baseOf_cons_succ]
      simp only [List.getD_cons_succ] at hj ⊢
      have hkr : k < rest.length := by simpa using hk
      rw [engineerAllAux,
        List.getD_append_right _ _ _ _ (by rw [engineerSeries_length]; omega)]
      have harith : rows.length + baseOf rest k + j - rows.length = baseOf rest k + j := by
        omega
      rw [engineerSeries_length, harith, ih (b + rows.length) k j hkr hj]
      have : b + (rows.length + baseOf rest k) = b + rows.length + baseOf rest k := by
        omega
      rw [this]

theorem getD_congr_of_take_eq {rows rows' : List Row} {i j : ℕ}
    (hpre : rows.take (i + 1) = rows'.take (i + 1)) (hj : j ≤ i) :
    rows.getD j default = rows'.getD j default := by
  have h1 : rows[j]? = rows'[j]? := by
    have h2 := congrArg (fun l => l[j]?) hpre
    simpa [List.getElem?_take_of_lt (show j < i + 1 by omega)] using h2
  simp [List.getD_eq_getElem?_getD, h1]

theorem take_congr_of_take_eq {rows rows' : List Row} {i j : ℕ}
    (hpre : rows.take (i + 1) = rows'.take (i + 1)) (hj : j ≤ i) :
    rows.take (j + 1) = rows'.take (j + 1) := by
  have h2 := congrArg (List.take (j + 1)) hpre
  simpa [List.take_take, Nat.min_eq_left (show j + 1 ≤ i + 1 by omega)] using h2

theorem restockIdxs_congr_of_take_eq {rows rows' : List Row} {i j : ℕ}
    (hpre : rows.take (i + 1) = rows'.take (i + 1)) (hj : j ≤ i) :
    restockIdxs rows j = restockIdxs rows' j := by
  unfold restockIdxs
  apply List.filter_congr
  intro a ha
  have haj : a ≤ i := by
    have := List.mem_range.mp ha
    omega
  rw [getD_congr_of_take_eq hpre haj]

theorem mkFeatRow_congr_of_take_eq (b : ℕ) {rows rows' : List Row} {i j : ℕ}
    (hpre : rows.take (i + 1) = rows'.take (i + 1)) (hj : j ≤ i) :
    mkFeatRow b rows j = mkFeatRow b rows' j := by
  have hr : rows.getD j default = rows'.getD j default :=
    getD_congr_of_take_eq hpre hj
  have hp : rows.getD (j - 1) default = rows'.getD (j - 1) default :=
    getD_congr_of_take_eq hpre (by omega)
  have ht : rows.take (j + 1) = rows'.take (j + 1) :=
    take_congr_of_take_eq hpre hj
  have hma : ∀ w, rollingMean w rows j = rollingMean w rows' j := by
    intro w
    unfold rollingMean
    rw [ht]
  have hre : daysSinceRestock b rows j = daysSinceRestock b rows' j := by
    unfold daysSinceRestock
    rw [restockIdxs_congr_of_take_eq hpre hj]
  simp only [mkFeatRow, hr, hp, hma, hre]

/- ======================================================================
   Helper lemmas about clipping, rounding and the forecaster
   ====================================================================== -/

theorem npClip_unit_interval (x : ℚ) : 0 ≤ npClip x 0 100 ∧ npClip x 0 100 ≤ 100 := by
  unfold npClip
  exact ⟨le_min (le_max_right _ _) (by norm_num), min_le_right _ _⟩

theorem round1_bounds {x : ℚ} (h0 : 0 ≤ x) (h1 : x ≤ 100) :
    0 ≤ round1 x ∧ round1 x ≤ 100 := by
  unfold round1
  have ha : (0 : ℤ) ≤ round (10 * x) := by
    rw [round_eq]
    calc (0 : ℤ) = ⌊(0 : ℚ) + 1 / 2⌋ := by norm_num
    _ ≤ ⌊10 * x + 1 / 2⌋ := Int.floor_mono (by linarith)
  have hb : round (10 * x) ≤ (1000 : ℤ) := by
    rw [round_eq]
    calc ⌊10 * x + 1 / 2⌋ ≤ ⌊(1000 : ℚ) + 1 / 2⌋ := Int.floor_mono (by linarith)
    _ = 1000 := by norm_num
  constructor
  · exact div_nonneg (by exact_mod_cast ha) (by norm_num)
  · rw [div_le_iff₀ (by norm_num)]
    have hb' : ((round (10 * x) : ℤ) : ℚ) ≤ 1000 := by exact_mod_cast hb
    linarith

theorem forecastPipeline_eq_some {series : List (List Row)} {predict : Feat → ℚ}
    {rmseBest : ℚ} {prodId days : ℕ} {pts : List ForecastPoint}
    (h : forecastPipeline series predict rmseBest prodId days = some pts) :
    ∃ lr, lastRowFor (engineerAll series) prodId = some lr ∧
      pts = (List.range days).map
        (fun k => forecastStep predict rmseBest (loopProductIdOf series) lr (k + 1)) := by
  unfold forecastPipeline forecastNextDays at h
  rcases Option.map_eq_some'.mp h with ⟨lr, hlr, hpts⟩
  exact ⟨lr, hlr, hpts.symm⟩

theorem zipWith_abs_div_eq (actual preds : List ℚ) (h : ∀ a ∈ actual, 0 ≤ a) :
    List.zipWith (fun a p => |(a - p) / (a + 1)|) actual preds =
      List.zipWith (fun a p => |a - p| / (a + 1)) actual preds := by
  induction actual generalizing preds with
  | nil => simp
  | cons a as ih =>
    cases preds with
    | nil => simp
    | cons p ps =>
      have ha : (0 : ℚ) ≤ a := h a (List.mem_cons_self a as)
      have habs : |(a - p) / (a + 1)| = |a - p| / (a + 1) := by
        rw [abs_div, abs_of_nonneg (by linarith : (0 : ℚ) ≤ a + 1)]
      simp only [List.zipWith, habs]
      rw [ih ps (fun x hx => h x (List.mem_cons_of_mem a hx))]

/- ======================================================================
   Claim theorems
   ====================================================================== -/

/-- C1 (amended): for every index of a product block, `DAYS_SINCE_RESTOCK`
equals `current_index - last_restock_index` where the restock index is the
greatest block-local index at or before the current one with stock ≥ 95;
when no restock has occurred at or before the index it equals the row's
*global* position `base + i` in the concatenated sorted table — which is
the distance from the start of that product's series only when the block
starts at global index 0.  The spec's `[50, 45, 96, 90] ↦ [0, 1, 0, 1]`
example holds because it concerns a block with base 0. -/
theorem daysSinceRestock_characterisation :
    (∀ (base : ℕ) (rows : List Row) (i : ℕ), i < rows.length →
      ((∃ j, j ≤ i ∧ 95 ≤ (rows.getD j default).quantidade_estoque) →
        ∃ j, j ≤ i ∧ 95 ≤ (rows.getD j default).quantidade_estoque ∧
          (∀ k, k ≤ i → 95 ≤ (rows.getD k default).quantidade_estoque → k ≤ j) ∧
          ((engineerSeries base rows).getD i default).days_since_restock = i - j) ∧
      ((∀ j, j ≤ i → (rows.getD j default).quantidade_estoque < 95) →
        ((engineerSeries base rows).getD i default).days_since_restock = base + i)) ∧
    (engineerSeries 0 restockExampleRows).map FeatRow.days_since_restock = [0, 1, 0, 1] := by
  constructor
  · intro base rows i hi
    rw [engineerSeries_getD base rows i hi]
    have hval : (mkFeatRow base rows i).days_since_restock
        = daysSinceRestock base rows i := rfl
    rw [hval]
    constructor
    · rintro ⟨j, hji, hjs⟩
      have hjmem : j ∈ restockIdxs rows i := by
        simp only [restockIdxs, List.mem_filter, List.mem_range, decide_eq_true_eq]
        exact ⟨by omega, hjs⟩
      cases hmax : (restockIdxs rows i).max? with
      | none =>
        rw [List.max?_eq_none_iff] at hmax
        rw [hmax] at hjmem
        exact absurd hjmem (List.not_mem_nil j)
      | some m =>
        obtain ⟨hmmem, hmax'⟩ := List.max?_eq_some_iff'.mp hmax
        have hm := List.mem_filter.mp hmmem
        have hmi : m ≤ i := by
          have := List.mem_range.mp hm.1
          omega
        have hms : 95 ≤ (rows.getD m default).quantidade_estoque := by
          simpa using hm.2
        refine ⟨m, hmi, hms, ?_, ?_⟩
        · intro k hk hks
          apply hmax'
          simp only [restockIdxs, List.mem_filter, List.mem_range, decide_eq_true_eq]
          exact ⟨by omega, hks⟩
        · simp [daysSinceRestock, hmax]
    · intro hall
      have hempty : restockIdxs rows i = [] := by
        rw [restockIdxs, List.filter_eq_nil_iff]
        intro a ha
        have hai : a ≤ i := by
          have := List.mem_range.mp ha
          omega
        simpa using not_le.mpr (hall a hai)
      simp [daysSinceRestock, hempty]
  · decide

/-- C1 witness: on the spec's example block, with base 0, index 3 has its
most recent restock at index 2 and distance `3 - 2 = 1`. -/
theorem daysSinceRestock_characterisation_witness :
    ∃ j, j ≤ 3 ∧ 95 ≤ (restockExampleRows.getD j default).quantidade_estoque ∧
      (∀ k, k ≤ 3 → 95 ≤ (restockExampleRows.getD k default).quantidade_estoque → k ≤ j) ∧
      ((engineerSeries 0 restockExampleRows).getD 3 default).days_since_restock = 3 - j :=
  (daysSinceRestock_characterisation.1 0 restockExampleRows 3 (by decide)).1
    ⟨2, by decide, by decide⟩

/-- C1 counterexample: in a two-product table with no restock anywhere,
the second product's first observation (block-local index 0, so the claim
demands `days_since_restock = 0`) gets `days_since_restock = 1`, its
global row position. -/
theorem daysSinceRestock_global_index_cex :
    (∀ fr ∈ engineerAll twoSkuNoRestock, fr.row.quantidade_estoque < 95) ∧
    ((engineerAll twoSkuNoRestock).getD 1 default).row.id_produto = 2 ∧
    ((engineerAll twoSkuNoRestock).getD 1 default).days_since_restock = 1 := by
  decide

/-- C2 (amended): the strictly higher holdout R2 wins, but a tie selects
the *Boosted* variant (the `else` branch of line 202), i.e. the model
evaluated second — not the Forest evaluated first. -/
theorem selection_strict_r2_tie_boosted (r2Rf r2Gb : ℚ) :
    (r2Gb < r2Rf → selectBest r2Rf r2Gb = BestModel.forest) ∧
    (r2Rf < r2Gb → selectBest r2Rf r2Gb = BestModel.boosted) ∧
    (r2Rf = r2Gb → selectBest r2Rf r2Gb = BestModel.boosted) := by
  refine ⟨fun h => ?_, fun h => ?_, fun h => ?_⟩
  · unfold selectBest
    rw [if_pos h]
  · unfold selectBest
    rw [if_neg (not_lt.mpr h.le)]
  · unfold selectBest
    rw [if_neg (by simp [h])]

/-- C2 witness: the rule at concrete R2 values, tie included. -/
theorem selection_strict_r2_tie_boosted_witness :
    selectBest 1 0 = BestModel.forest ∧ selectBest 0 1 = BestModel.boosted ∧
      selectBest 1 1 = BestModel.boosted :=
  ⟨(selection_strict_r2_tie_boosted 1 0).1 (by norm_num),
   (selection_strict_r2_tie_boosted 0 1).2.1 (by norm_num),
   (selection_strict_r2_tie_boosted 1 1).2.2 rfl⟩

/-- C2 counterexample: two regressors with identical holdout predictions
tie on R2, and the pipeline selects the Boosted variant — not the Forest,
which the claim says wins a tie as the first-evaluated model. -/
theorem selection_tie_cex :
    evalAndSelect (fun _ => 50) (fun _ => 50) [default, default] [40, 60]
        = BestModel.boosted ∧
    BestModel.boosted ≠ BestModel.forest := by
  constructor
  · unfold evalAndSelect selectBest
    rw [if_neg (lt_irrefl _)]
  · decide

/-- C3 (amended): every synthetic vector for future offset `d` holds
`prev_day_sales`, `ma_3d`, `ma_7d` and `trend_3d` at the located last
row's values of those same fields, freezes the promotion flag at 0
(false) and the price variation at 0, and advances `days_since_restock`
to the last observed value plus `d` — but `previous_price` is set to the
last row's *price* (`PRECO`), not to the last row's `PREVIOUS_PRICE`
field. -/
theorem forecast_frozen_state (series : List (List Row)) (prodId : ℕ) (lr : FeatRow)
    (_hlr : lastRowFor (engineerAll series) prodId = some lr) (d : ℕ) :
    (futureFeat (loopProductIdOf series) lr d).prev_day_sales = lr.prev_day_sales ∧
    (futureFeat (loopProductIdOf series) lr d).previous_price = lr.row.preco ∧
    (futureFeat (loopProductIdOf series) lr d).ma_3d = lr.ma_3d ∧
    (futureFeat (loopProductIdOf series) lr d).ma_7d = lr.ma_7d ∧
    (futureFeat (loopProductIdOf series) lr d).trend_3d = lr.trend_3d ∧
    (futureFeat (loopProductIdOf series) lr d).flag_promocao = 0 ∧
    (futureFeat (loopProductIdOf series) lr d).price_variation = 0 ∧
    (futureFeat (loopProductIdOf series) lr d).days_since_restock
        = lr.days_since_restock + d :=
  ⟨rfl, rfl, rfl, rfl, rfl, rfl, rfl, rfl⟩

/-- C3 witness: the frozen-feature equations on a concrete located last
row and offset 4. -/
theorem forecast_frozen_state_witness :
    (futureFeat (loopProductIdOf [priceMoveRows]) priceMoveLastRow 4).prev_day_sales
        = priceMoveLastRow.prev_day_sales ∧
    (futureFeat (loopProductIdOf [priceMoveRows]) priceMoveLastRow 4).previous_price
        = priceMoveLastRow.row.preco ∧
    (futureFeat (loopProductIdOf [priceMoveRows]) priceMoveLastRow 4).ma_3d
        = priceMoveLastRow.ma_3d ∧
    (futureFeat (loopProductIdOf [priceMoveRows]) priceMoveLastRow 4).ma_7d
        = priceMoveLastRow.ma_7d ∧
    (futureFeat (loopProductIdOf [priceMoveRows]) priceMoveLastRow 4).trend_3d
        = priceMoveLastRow.trend_3d ∧
    (futureFeat (loopProductIdOf [priceMoveRows]) priceMoveLastRow 4).flag_promocao = 0 ∧
    (futureFeat (loopProductIdOf [priceMoveRows]) priceMoveLastRow 4).price_variation = 0 ∧
    (futureFeat (loopProductIdOf [priceMoveRows]) priceMoveLastRow 4).days_since_restock
        = priceMoveLastRow.days_since_restock + 4 :=
  forecast_frozen_state [priceMoveRows] 7 priceMoveLastRow rfl 4

/-- C3 counterexample: when the last two observed prices differ (10 then
20), the synthetic vector's `previous_price` is 20 — the last observed
*price* — and differs from the last row's own `previous_price` field
(10), refuting "previous_price is held at the last observed value of that
same field". -/
theorem forecast_previous_price_cex :
    lastRowFor (engineerAll [priceMoveRows]) 7 = some priceMoveLastRow ∧
    priceMoveLastRow.previous_price = 10 ∧
    (futureFeat (loopProductIdOf [priceMoveRows]) priceMoveLastRow 1).previous_price = 20 ∧
    (futureFeat (loopProductIdOf [priceMoveRows]) priceMoveLastRow 1).previous_price ≠
      priceMoveLastRow.previous_price :=
  ⟨rfl, rfl, rfl, by decide⟩

/-- C4: every synthetic vector the forecaster builds carries
`loopProductIdOf series` — the module-level loop variable's value, the id
of the product iterated last during feature engineering — as its
`ID_PRODUTO` feature, whatever id was requested; and the requested id
influences the output only through the located last row. -/
theorem forecast_uses_loop_product_id :
    (∀ (series : List (List Row)) (predict : Feat → ℚ) (rmseBest : ℚ)
        (prodId days : ℕ) (pts : List ForecastPoint),
      forecastPipeline series predict rmseBest prodId days = some pts →
      ∀ p ∈ pts, ∃ lr d, lastRowFor (engineerAll series) prodId = some lr ∧
        1 ≤ d ∧ d ≤ days ∧
        (futureFeat (loopProductIdOf series) lr d).id_produto = loopProductIdOf series ∧
        p = forecastStep predict rmseBest (loopProductIdOf series) lr d) ∧
    (∀ (series : List (List Row)) (predict : Feat → ℚ) (rmseBest : ℚ)
        (prodId1 prodId2 days : ℕ),
      lastRowFor (engineerAll series) prodId1 = lastRowFor (engineerAll series) prodId2 →
      forecastPipeline series predict rmseBest prodId1 days =
        forecastPipeline series predict rmseBest prodId2 days) := by
  constructor
  · intro series predict rmseBest prodId days pts h p hp
    rcases forecastPipeline_eq_some h with ⟨lr, hlr, hpts⟩
    subst hpts
    rcases List.mem_map.mp hp with ⟨k, hk, rfl⟩
    have hkd : k < days := List.mem_range.mp hk
    exact ⟨lr, k + 1, hlr, by omega, by omega, rfl, rfl⟩
  · intro series predict rmseBest prodId1 prodId2 days h
    unfold forecastPipeline forecastNextDays
    rw [h]

/-- C4 witness: in a table whose last iterated product is 2, the forecast
requested for product 1 builds vectors carrying id 2, not 1. -/
theorem forecast_uses_loop_product_id_witness :
    loopProductIdOf leakExampleSeries = 2 ∧
    (futureFeat (loopProductIdOf leakExampleSeries) leakLastRow 1).id_produto ≠ 1 ∧
    ∀ p ∈ (List.range 1).map (fun k =>
        forecastStep (fun x => (x.id_produto : ℚ)) 0 (loopProductIdOf leakExampleSeries)
          leakLastRow (k + 1)),
      ∃ lr d, lastRowFor (engineerAll leakExampleSeries) 1 = some lr ∧
        1 ≤ d ∧ d ≤ 1 ∧
        (futureFeat (loopProductIdOf leakExampleSeries) lr d).id_produto
            = loopProductIdOf leakExampleSeries ∧
        p = forecastStep (fun x => (x.id_produto : ℚ)) 0 (loopProductIdOf leakExampleSeries)
              lr d :=
  ⟨rfl, by decide,
   forecast_uses_loop_product_id.1 leakExampleSeries (fun x => (x.id_produto : ℚ))
     0 1 1 _ rfl⟩

/-- C5: no lookahead — holding every block's length fixed, if product
`k`'s block agrees up to local index `i`, then every engineered row of
that block at positions `≤ i` (at its global position in `df_features`)
is unchanged, whatever happens to later observations of that product or
to any observation of any other product. -/
theorem no_lookahead (s t : List (List Row)) (k i : ℕ) (hk : k < s.length)
    (hlen : s.map List.length = t.map List.length)
    (hpre : (s.getD k []).take (i + 1) = (t.getD k []).take (i + 1)) :
    ∀ j, j ≤ i → j < (s.getD k []).length →
      (engineerAll s).getD (baseOf s k + j) default =
        (engineerAll t).getD (baseOf t k + j) default := by
  intro j hji hjlen
  have hts : t.length = s.length := by
    have h := congrArg List.length hlen
    simpa using h.symm
  have hkt : k < t.length := by omega
  have hblock : (s.getD k []).length = (t.getD k []).length := by
    have h1 : (s.map List.length)[k]? = (t.map List.length)[k]? := by rw [hlen]
    rw [List.getElem?_map, List.getElem?_map, List.getElem?_eq_getElem hk,
      List.getElem?_eq_getElem hkt] at h1
    have h2 := Option.some.inj h1
    rw [List.getD_eq_getElem _ _ hk, List.getD_eq_getElem _ _ hkt]
    simpa using h2
  have hbase : baseOf s k = baseOf t k := by
    unfold baseOf
    rw [List.map_take, List.map_take, hlen]
  have hjt : j < (t.getD k []).length := by omega
  rw [engineerAll, engineerAll, engineerAllAux_getD s 0 k j hk hjlen,
    engineerAllAux_getD t 0 k j hkt hjt, hbase]
  exact mkFeatRow_congr_of_take_eq _ hpre hji

/-- C5 witness: perturbing product 1's second day and all of product 2
leaves product 1's first engineered row unchanged. -/
theorem no_lookahead_witness :
    (engineerAll perturbBase).getD (baseOf perturbBase 0 + 0) default =
      (engineerAll perturbLater).getD (baseOf perturbLater 0 + 0) default :=
  no_lookahead perturbBase perturbLater 0 0 (by decide) (by decide) (by decide)
    0 (le_refl 0) (by decide)

/-- C6: a forecast requested for a product id absent from the feature
table fails: the empty selection's `iloc[-1]` cannot produce a last row
(in the script, an uncaught positional-indexing error — the failure the
spec names `NotFoundError`), modelled as `none`. -/
theorem forecast_absent_sku_fails (series : List (List Row)) (predict : Feat → ℚ)
    (rmseBest : ℚ) (prodId days : ℕ)
    (h : ∀ fr ∈ engineerAll series, fr.row.id_produto ≠ prodId) :
    forecastPipeline series predict rmseBest prodId days = none := by
  unfold forecastPipeline forecastNextDays lastRowFor
  have hfil : (engineerAll series).filter (fun fr => fr.row.id_produto == prodId) = [] := by
    rw [List.filter_eq_nil_iff]
    intro fr hfr
    simpa using h fr hfr
  rw [hfil]
  rfl

/-- C6 witness: product 2 is absent from a table holding only product 1. -/
theorem forecast_absent_sku_fails_witness :
    forecastPipeline [[⟨1, 0, 50, 10, 0⟩]] (fun _ => 0) 0 2 7 = none :=
  forecast_absent_sku_fails [[⟨1, 0, 50, 10, 0⟩]] (fun _ => 0) 0 2 7 (by decide)

/-- C7: every holdout-evaluation prediction (of either regressor, both
run through `evalPreds`) and every forecast-step prediction lies in
`[0, 100]` — `np.clip` bounds the raw prediction and rounding to one
decimal cannot leave the interval. -/
theorem predictions_in_range :
    (∀ (predict : Feat → ℚ) (xTest : List Feat) (q : ℚ),
      q ∈ evalPreds predict xTest → 0 ≤ q ∧ q ≤ 100) ∧
    (∀ (series : List (List Row)) (predict : Feat → ℚ) (rmseBest : ℚ)
        (prodId days : ℕ) (pts : List ForecastPoint),
      forecastPipeline series predict rmseBest prodId days = some pts →
      ∀ p ∈ pts, 0 ≤ p.predicted ∧ p.predicted ≤ 100) := by
  constructor
  · intro predict xTest q hq
    rcases List.mem_map.mp hq with ⟨x, _, rfl⟩
    exact npClip_unit_interval (predict x)
  · intro series predict rmseBest prodId days pts h p hp
    rcases forecastPipeline_eq_some h with ⟨lr, hlr, hpts⟩
    subst hpts
    rcases List.mem_map.mp hp with ⟨k, _, rfl⟩
    have hc := npClip_unit_interval
      (predict (futureFeat (loopProductIdOf series) lr (k + 1)))
    have hpred : (forecastStep predict rmseBest (loopProductIdOf series) lr (k + 1)).predicted
        = round1 (npClip (predict (futureFeat (loopProductIdOf series) lr (k + 1))) 0 100) :=
      rfl
    rw [hpred]
    exact round1_bounds hc.1 hc.2

/-- C7 witness: a raw prediction of 250 is clipped into range on the
holdout path, and a concrete one-step forecast's reported prediction is
in range. -/
theorem predictions_in_range_witness :
    (0 ≤ npClip 250 0 100 ∧ npClip 250 0 100 ≤ 100) ∧
    ∀ p ∈ (List.range 1).map (fun k =>
        forecastStep (fun _ => 250) 0 (loopProductIdOf clipExampleSeries) clipLastRow (k + 1)),
      0 ≤ p.predicted ∧ p.predicted ≤ 100 :=
  ⟨predictions_in_range.1 (fun _ => 250) [default] (npClip 250 0 100)
      (List.mem_singleton.mpr rfl),
   predictions_in_range.2 clipExampleSeries (fun _ => 250) 0 3 1 _ rfl⟩

/-- C8: a successful `forecast_next_days` call returns exactly `days`
points whose dates are the strictly increasing, contiguous calendar days
`last observation date + 1, …, + days`. -/
theorem forecast_horizon_dates (series : List (List Row)) (predict : Feat → ℚ)
    (rmseBest : ℚ) (prodId days : ℕ) (pts : List ForecastPoint)
    (h : forecastPipeline series predict rmseBest prodId days = some pts) :
    ∃ lr, lastRowFor (engineerAll series) prodId = some lr ∧
      pts.length = days ∧
      (∀ i, (hi : i < pts.length) → pts[i].date = lr.row.data_evento + (i + 1)) ∧
      (∀ i j, (hi : i < pts.length) → (hj : j < pts.length) → i < j →
        pts[i].date < pts[j].date) := by
  rcases forecastPipeline_eq_some h with ⟨lr, hlr, hpts⟩
  subst hpts
  refine ⟨lr, hlr, by simp, ?_, ?_⟩
  · intro i hi
    simp only [List.getElem_map, List.getElem_range, forecastStep]
    push_cast
    ring
  · intro i j hi hj hij
    simp only [List.getElem_map, List.getElem_range, forecastStep]
    omega

/-- C8 witness: a two-day forecast of a product last observed on day 5
has two points dated 6 and 7. -/
theorem forecast_horizon_dates_witness :
    ∃ lr, lastRowFor (engineerAll horizonExampleSeries) 1 = some lr ∧
      ((List.range 2).map (fun k =>
          forecastStep (fun _ => 50) 0 (loopProductIdOf horizonExampleSeries)
            horizonLastRow (k + 1))).length = 2 ∧
      (∀ i, (hi : i < ((List.range 2).map (fun k =>
          forecastStep (fun _ => 50) 0 (loopProductIdOf horizonExampleSeries)
            horizonLastRow (k + 1))).length) →
        ((List.range 2).map (fun k =>
          forecastStep (fun _ => 50) 0 (loopProductIdOf horizonExampleSeries)
            horizonLastRow (k + 1)))[i].date = lr.row.data_evento + (i + 1)) ∧
      (∀ i j, (hi : i < ((List.range 2).map (fun k =>
          forecastStep (fun _ => 50) 0 (loopProductIdOf horizonExampleSeries)
            horizonLastRow (k + 1))).length) →
        (hj : j < ((List.range 2).map (fun k =>
          forecastStep (fun _ => 50) 0 (loopProductIdOf horizonExampleSeries)
            horizonLastRow (k + 1))).length) → i < j →
        ((List.range 2).map (fun k =>
          forecastStep (fun _ => 50) 0 (loopProductIdOf horizonExampleSeries)
            horizonLastRow (k + 1)))[i].date <
          ((List.range 2).map (fun k =>
            forecastStep (fun _ => 50) 0 (loopProductIdOf horizonExampleSeries)
              horizonLastRow (k + 1)))[j].date) :=
  forecast_horizon_dates horizonExampleSeries (fun _ => 50) 0 1 2 _ rfl

/-- C9: the holdout MAPE formula — under the program's nonnegative stock
levels the coded `mean(|((a - p) / (a + 1))|) * 100` equals the spec's
`mean(|a - p| / (a + 1)) * 100`, the `+1` denominator is never zero, and
on `actual = [0, 10]`, `predicted = [5, 8]` the value is `2850/11 ≈ 259.1`. -/
theorem mape_smoothed_formula :
    (∀ actual preds : List ℚ, (∀ a ∈ actual, 0 ≤ a) →
      mapeCode actual preds = mapeSpec actual preds) ∧
    mapeCode [0, 10] [5, 8] = 2850 / 11 ∧
    |mapeCode [0, 10] [5, 8] - 2591 / 10| < 1 / 10 := by
  refine ⟨fun actual preds h => ?_, ?_, ?_⟩
  · unfold mapeCode mapeSpec
    rw [zipWith_abs_div_eq actual preds h]
  · norm_num [mapeCode, listMean, List.zipWith, abs_of_nonneg]
  · norm_num [mapeCode, listMean, List.zipWith, abs_of_nonneg, abs_sub_lt_iff]

/-- C9 witness: the coded and spec formulas agree on the example lists,
whose actuals include a zero. -/
theorem mape_smoothed_formula_witness :
    mapeCode [0, 10] [5, 8] = mapeSpec [0, 10] [5, 8] :=
  mape_smoothed_formula.1 [0, 10] [5, 8] (by decide)

/-- C10: the train/holdout split is ordered and non-shuffled over the
assembled table (whose rows are exactly the concatenated per-product
blocks of the sorted table, in order): the training partition is the
initial segment, the holdout the final segment, they concatenate back to
the table, and when the row count is a multiple of 5 the partitions hold
exactly 80% and 20% of the rows. -/
theorem ordered_global_split (series : List (List Row)) :
    trainPart series =
      (dfModel series).take
        ((dfModel series).length - ((dfModel series).length + 4) / 5) ∧
    testPart series =
      (dfModel series).drop
        ((dfModel series).length - ((dfModel series).length + 4) / 5) ∧
    trainPart series ++ testPart series = dfModel series ∧
    (engineerAll series).map FeatRow.row = series.flatten ∧
    (5 ∣ (dfModel series).length →
      5 * (trainPart series).length = 4 * (dfModel series).length ∧
      5 * (testPart series).length = (dfModel series).length) := by
  refine ⟨rfl, rfl, List.take_append_drop _ _, engineerAll_rows series, fun h5 => ?_⟩
  constructor
  · simp only [trainPart, trainTestSplitNoShuffle, List.length_take]
    omega
  · simp only [testPart, trainTestSplitNoShuffle, List.length_drop]
    omega

/-- C10 witness: on a five-row table the partitions hold four and one
rows. -/
theorem ordered_global_split_witness :
    5 * (trainPart fiveRowSeries).length = 4 * (dfModel fiveRowSeries).length ∧
    5 * (testPart fiveRowSeries).length = (dfModel fiveRowSeries).length :=
  (ordered_global_split fiveRowSeries).2.2.2.2 (by decide)
